import Mathlib

/-!
Verification of the spec-drift validation engine: the alignment library
(use cases vs BDD features, `scripts/lib/alignment.py`) and the traceability
library (use cases vs services, `scripts/lib/traceability.py`).

Python dictionaries are modelled as association lists in insertion order with
unique keys (`dictInsert` reproduces `d[k] = v`: overwrite in place when the
key exists, append otherwise); Python sets are modelled by list membership;
an exception raised while reading or parsing one file is modelled by an
`Except.error` parse outcome for that file, and each directory-scan loop is
embedded over the list of per-file parse outcomes exactly as the loop treats
them (propagating the error when the source has no handler, skipping and
logging when it has `try/except`).
-/

namespace Spec2Proof

/-- Python `d[k] = v` on a dict in insertion order: if the key is present the
value is updated in place (position kept), otherwise the pair is appended. -/
def dictInsert {α : Type} (m : List (String × α)) (k : String) (v : α) :
    List (String × α) :=
  if m.any (fun p => p.1 == k) then
    m.map (fun p => if p.1 == k then (k, v) else p)
  else
    m ++ [(k, v)]

/-- Python `d.get(k)` / `d[k]` on the association-list model of a dict. -/
def lookupDict {α : Type} (m : List (String × α)) (k : String) : Option α :=
  (m.find? (fun p => p.1 == k)).map (fun p => p.2)

/-- `PurePosixPath(s).name`: the last path component, with empty and `.`
components dropped (so a trailing slash does not produce an empty name). -/
def pathName (s : String) : String :=
  (((s.splitOn "/").filter (fun c => c != "" && c != ".")).getLast?).getD ""

namespace Alignment

/-- `alignment.UseCase` (dataclass). -/
structure UseCase where
  uc_id : String
  file_path : String
  acceptance_criteria : List String
  bdd_file_referenced : String
deriving Repr, DecidableEq

/-- `alignment.BDDFeature` (dataclass). -/
structure BDDFeature where
  feature_name : String
  file_path : String
  scenarios : List String
  uc_reference : String
deriving Repr, DecidableEq

/-- `alignment.AlignmentIssue` (dataclass). -/
structure AlignmentIssue where
  issue_type : String
  uc_id : String
  feature_name : String
  message : String
  severity : String
deriving Repr, DecidableEq

/-- `AlignmentValidator._check_missing_bdd_files`: collect the set of
`uc_reference` values of the features (skipping falsy i.e. empty ones), then
emit one `missing_bdd` error for every use-case key not in that set. -/
def check_missing_bdd_files (use_cases : List (String × UseCase))
    (bdd_features : List (String × BDDFeature)) : List AlignmentIssue :=
  let ucs_with_bdd : List String :=
    (bdd_features.map (fun p => p.2.uc_reference)).filter (fun r => r != "")
  use_cases.filterMap (fun p =>
    if ucs_with_bdd.contains p.1 then none
    else some { issue_type := "missing_bdd", uc_id := p.1, feature_name := "",
                message := p.1 ++ " has no corresponding BDD feature file",
                severity := "error" })

/-- `AlignmentValidator._check_orphaned_features`: a feature with an empty
`uc_reference` is an `orphaned_feature` warning; one whose reference is not a
key of the use-case dict is a `broken_uc_ref` error. -/
def check_orphaned_features (use_cases : List (String × UseCase))
    (bdd_features : List (String × BDDFeature)) : List AlignmentIssue :=
  bdd_features.filterMap (fun p =>
    if p.2.uc_reference == "" then
      some { issue_type := "orphaned_feature", uc_id := "", feature_name := p.1,
             message := "BDD feature \x27" ++ p.1 ++ "\x27 has no UC reference",
             severity := "warning" }
    else if !(use_cases.any (fun q => q.1 == p.2.uc_reference)) then
      some { issue_type := "broken_uc_ref", uc_id := p.2.uc_reference,
             feature_name := p.1,
             message := "BDD feature \x27" ++ p.1 ++ "\x27 references non-existent "
               ++ p.2.uc_reference,
             severity := "error" }
    else none)

/-- The `uc_to_feature` dict built at the top of
`AlignmentValidator._check_count_mismatch`: iterate the features in order and
assign `uc_to_feature[feature.uc_reference] = feature` for every feature with
a non-empty reference (later features overwrite earlier ones). -/
def uc_to_feature (bdd_features : List (String × BDDFeature)) :
    List (String × BDDFeature) :=
  bdd_features.foldl
    (fun m p => if p.2.uc_reference != "" then dictInsert m p.2.uc_reference p.2 else m)
    []

/-- `AlignmentValidator._check_count_mismatch`: for each use-case key present
in `uc_to_feature`, compare criteria count with scenario count and emit a
`count_mismatch` warning when they differ. -/
def check_count_mismatch (use_cases : List (String × UseCase))
    (bdd_features : List (String × BDDFeature)) : List AlignmentIssue :=
  let m := uc_to_feature bdd_features
  use_cases.filterMap (fun p =>
    match lookupDict m p.1 with
    | none => none
    | some feature =>
      let criteria_count := p.2.acceptance_criteria.length
      let scenario_count := feature.scenarios.length
      if criteria_count != scenario_count then
        some { issue_type := "count_mismatch", uc_id := p.1,
               feature_name := feature.feature_name,
               message := p.1 ++ ": " ++ toString criteria_count
                 ++ " acceptance criteria but " ++ toString scenario_count
                 ++ " BDD scenarios in \x27" ++ feature.feature_name ++ "\x27",
               severity := "warning" }
      else none)

/-- `AlignmentValidator._check_broken_references`: build the set of existing
feature file base names (lower-cased); for each use case with a non-empty
`bdd_file_referenced`, emit a `broken_bdd_ref` error when the reference's
lower-cased base name is not in that set. -/
def check_broken_references (use_cases : List (String × UseCase))
    (bdd_features : List (String × BDDFeature)) : List AlignmentIssue :=
  let existing_bdd_files : List String :=
    bdd_features.map (fun p => (pathName p.2.file_path).toLower)
  use_cases.filterMap (fun p =>
    if p.2.bdd_file_referenced == "" then none
    else
      if existing_bdd_files.contains ((pathName p.2.bdd_file_referenced).toLower) then none
      else some { issue_type := "broken_bdd_ref", uc_id := p.1, feature_name := "",
                  message := p.1 ++ " references BDD file \x27"
                    ++ p.2.bdd_file_referenced ++ "\x27 which doesn\x27t exist",
                  severity := "error" })

/-- `AlignmentValidator.validate`: the four checks concatenated in order. -/
def validate (use_cases : List (String × UseCase))
    (bdd_features : List (String × BDDFeature)) : List AlignmentIssue :=
  check_missing_bdd_files use_cases bdd_features
    ++ check_orphaned_features use_cases bdd_features
    ++ check_count_mismatch use_cases bdd_features
    ++ check_broken_references use_cases bdd_features

/-- One alignment use-case file's parse outcome: `Except.error e` models an
exception raised while reading or parsing the file, `Except.ok none` models
`_parse_use_case_file` returning `None` (filename pattern mismatch, silently
skipped), `Except.ok (some uc)` a successful parse. -/
abbrev UCParseOutcome := Except String (Option UseCase)

/-- The loop of `AlignmentParser.parse_use_cases` over the globbed files
(each given with its parse outcome).  The loop body has no `try/except`, so
an exception propagates out of the whole scan (`Except.error`); a successful
parse is inserted into the dict by `uc.uc_id`. -/
def parse_use_cases_scan :
    List (String × UCParseOutcome) → List (String × UseCase) →
    Except String (List (String × UseCase))
  | [], use_cases => Except.ok use_cases
  | f :: fs, use_cases =>
    match f.2 with
    | Except.error e => Except.error e
    | Except.ok none => parse_use_cases_scan fs use_cases
    | Except.ok (some uc) => parse_use_cases_scan fs (dictInsert use_cases uc.uc_id uc)

/-- One BDD feature file's parse outcome, as for `UCParseOutcome`. -/
abbrev FeatureParseOutcome := Except String (Option BDDFeature)

/-- The loop of `AlignmentParser.parse_bdd_features`: same structure as
`parse_use_cases_scan` (no `try/except`), keyed by `feature.feature_name`. -/
def parse_bdd_features_scan :
    List (String × FeatureParseOutcome) → List (String × BDDFeature) →
    Except String (List (String × BDDFeature))
  | [], features => Except.ok features
  | f :: fs, features =>
    match f.2 with
    | Except.error e => Except.error e
    | Except.ok none => parse_bdd_features_scan fs features
    | Except.ok (some feature) =>
        parse_bdd_features_scan fs (dictInsert features feature.feature_name feature)

/-- Inserting a list of parsed use cases into a dict one after the other,
as the all-files-parse-cleanly case of `parse_use_cases_scan` does. -/
def insert_all (entities : List UseCase) : List (String × UseCase) :=
  entities.foldl (fun m uc => dictInsert m uc.uc_id uc) []

end Alignment

namespace Trace

/-- `traceability.UseCase` (dataclass). -/
structure UseCase where
  id : String
  name : String
  file_path : String
  services_used : List String
  has_justification : Bool
deriving Repr, DecidableEq

/-- `traceability.Service` (dataclass). -/
structure Service where
  id : String
  name : String
  file_path : String
  used_by : List String
deriving Repr, DecidableEq

/-- One record of `issues["missing_services"]` (a dict with keys
`uc`, `service`, `uc_file`). -/
structure MissingService where
  uc : String
  service : String
  uc_file : String
deriving Repr, DecidableEq

/-- One record of `issues["bidirectional_mismatches"]` (a dict with keys
`uc`, `service`, `issue`, `uc_file`, `service_file`). -/
structure BidirMismatch where
  uc : String
  service : String
  issue : String
  uc_file : String
  service_file : String
deriving Repr, DecidableEq

/-- The result dict of `TraceabilityValidator.validate`. -/
structure TraceIssues where
  orphan_services : List Service
  unjustified_serviceless_ucs : List UseCase
  missing_services : List MissingService
  bidirectional_mismatches : List BidirMismatch
deriving Repr, DecidableEq

/-- Check 1: use cases with no services used and no justification. -/
def check_unjustified (use_cases : List UseCase) : List UseCase :=
  use_cases.filter (fun uc => uc.services_used.isEmpty && !uc.has_justification)

/-- Check 2: services whose id and name appear in no use case's
`services_used` (the source tests this twice: once against the accumulated
`used_services` set, once per use case; both are embedded). -/
def check_orphan_services (use_cases : List UseCase) (services : List Service) :
    List Service :=
  services.filter (fun service =>
    if !(use_cases.any (fun uc => uc.services_used.contains service.id))
        && !(use_cases.any (fun uc => uc.services_used.contains service.name)) then
      let is_used := use_cases.any (fun uc =>
        uc.services_used.contains service.id || uc.services_used.contains service.name)
      !is_used
    else false)

/-- Check 3: for each use case and each raw service reference, a
`missing_services` record when the reference matches no service's `id`
(membership in the `service_ids` set) and no service's `name`. -/
def check_missing_services (use_cases : List UseCase) (services : List Service) :
    List MissingService :=
  use_cases.flatMap (fun uc =>
    uc.services_used.filterMap (fun service_ref =>
      if !(services.any (fun s => s.id == service_ref)) then
        if !(services.any (fun s => s.name == service_ref)) then
          some { uc := uc.id, service := service_ref, uc_file := uc.file_path }
        else none
      else none))

/-- The reference resolution of check 4's forward pass:
`service_by_id.get(service_ref)` — the dict comprehension `{s.id: s}` keeps
the last service for a duplicated id — and, when that misses,
`next((s for s in services if s.name == service_ref), None)`. -/
def resolve_service (services : List Service) (service_ref : String) :
    Option Service :=
  match (services.filter (fun s => s.id == service_ref)).getLast? with
  | some s => some s
  | none => services.find? (fun s => s.name == service_ref)

/-- The message of a forward bidirectional mismatch record. -/
def forward_msg : String :=
  "UC references service but service does not list UC in \"Used By\" section"

/-- The message of a backward bidirectional mismatch record. -/
def backward_msg : String :=
  "Service lists UC but UC does not reference service"

/-- The body of check 4's forward loop for one service reference of one use
case: when the reference resolves and the use case's id is not in the
resolved service's `used_by`, one mismatch record. -/
def forward_emit (services : List Service) (uc : UseCase)
    (service_ref : String) : Option BidirMismatch :=
  match resolve_service services service_ref with
  | none => none
  | some service =>
    if !(service.used_by.contains uc.id) then
      some { uc := uc.id, service := service.id, issue := forward_msg,
             uc_file := uc.file_path, service_file := service.file_path }
    else none

/-- Check 4, forward pass: for each use case and each service reference that
resolves, a mismatch record when the use case's id is not in the resolved
service's `used_by`. -/
def forward_mismatches (use_cases : List UseCase) (services : List Service) :
    List BidirMismatch :=
  use_cases.flatMap (fun uc =>
    uc.services_used.filterMap (forward_emit services uc))

/-- The body of check 4's backward loop for one `used_by` entry of one
service: when a use case with that id exists (first match) and references the
service neither by id nor by name, one mismatch record. -/
def backward_emit (use_cases : List UseCase) (service : Service)
    (uc_ref : String) : Option BidirMismatch :=
  match use_cases.find? (fun u => u.id == uc_ref) with
  | none => none
  | some uc =>
    if !(uc.services_used.contains service.id)
        && !(uc.services_used.contains service.name) then
      some { uc := uc_ref, service := service.id, issue := backward_msg,
             uc_file := uc.file_path, service_file := service.file_path }
    else none

/-- Check 4, backward pass: for each service and each `used_by` entry naming
an existing use case (the first with that id), a mismatch record when neither
the service's id nor its name is in that use case's `services_used`. -/
def backward_mismatches (use_cases : List UseCase) (services : List Service) :
    List BidirMismatch :=
  services.flatMap (fun service =>
    service.used_by.filterMap (backward_emit use_cases service))

/-- `TraceabilityValidator.validate`: the four checks, the two bidirectional
passes appended in forward-then-backward order. -/
def validate (use_cases : List UseCase) (services : List Service) : TraceIssues :=
  { orphan_services := check_orphan_services use_cases services,
    unjustified_serviceless_ucs := check_unjustified use_cases,
    missing_services := check_missing_services use_cases services,
    bidirectional_mismatches :=
      forward_mismatches use_cases services ++ backward_mismatches use_cases services }

/-- The warning `TraceabilityParser` prints when a per-file exception is
caught: `Warning: Error parsing {file}: {e}`. -/
def warn_line (file : String) (e : String) : String :=
  "Warning: Error parsing " ++ file ++ ": " ++ e

/-- The shared `try/except` loop body of the two traceability scans: a
successful parse is appended to the entity list, a raised exception is
caught, turned into one printed warning naming the file, and skipped. -/
def scan_step {α : Type} (acc : List α × List String)
    (f : String × Except String α) : List α × List String :=
  match f.2 with
  | Except.ok x => (acc.1 ++ [x], acc.2)
  | Except.error e => (acc.1, acc.2 ++ [warn_line f.1 e])

/-- The loop of `TraceabilityParser.parse_use_cases` over the sorted globbed
files, each given with its parse outcome (`Except.error e` models a raised
exception).  The body is wrapped in `try/except`: an error is logged as a
warning naming the file and the loop continues; the result is the appended
list of successfully parsed use cases together with the printed warnings. -/
def parse_use_cases_scan (files : List (String × Except String UseCase)) :
    List UseCase × List String :=
  files.foldl scan_step ([], [])

/-- The loop of `TraceabilityParser.parse_services`: same `try/except`
structure as `parse_use_cases_scan`, over `*/service-spec.md` files. -/
def parse_services_scan (files : List (String × Except String Service)) :
    List Service × List String :=
  files.foldl scan_step ([], [])

end Trace

/-- The first exception raised during a scan without a per-file handler: the
leftmost `Except.error` among the per-file parse outcomes. -/
def firstErr {α : Type} (files : List (String × Except String α)) : Option String :=
  files.findSome? (fun f =>
    match f.2 with
    | Except.error e => some e
    | Except.ok _ => none)

/-- The successfully parsed entities of an alignment scan, in file order
(`Except.ok none` is the silent filename-pattern skip). -/
def okParses {α : Type} (files : List (String × Except String (Option α))) :
    List α :=
  files.filterMap (fun f =>
    match f.2 with
    | Except.ok (some x) => some x
    | _ => none)

/-- The warning a traceability scan prints for one file, when its parse
outcome is a caught exception. -/
def warnOf {α : Type} (f : String × Except String α) : Option String :=
  match f.2 with
  | Except.error e => some (Trace.warn_line f.1 e)
  | Except.ok _ => none

namespace Alignment

/-- State-passing embedding of `AlignmentValidator.validate`: the method body
is a sequence of reads of `use_cases` and `bdd_features` and of
`issues.extend(...)` calls on the freshly created `issues` list; no statement
assigns to the inputs, so the statement-by-statement embedding threads the
input store through unchanged and accumulates the issues. -/
def validate_st
    (s : List (String × UseCase) × List (String × BDDFeature)) :
    (List (String × UseCase) × List (String × BDDFeature)) × List AlignmentIssue :=
  let use_cases := s.1
  let bdd_features := s.2
  let issues : List AlignmentIssue := []
  let issues := issues ++ check_missing_bdd_files use_cases bdd_features
  let issues := issues ++ check_orphaned_features use_cases bdd_features
  let issues := issues ++ check_count_mismatch use_cases bdd_features
  let issues := issues ++ check_broken_references use_cases bdd_features
  ((use_cases, bdd_features), issues)

end Alignment

namespace Trace

/-- State-passing embedding of `TraceabilityValidator.validate`, as
`Alignment.validate_st`: every statement of the method reads the inputs or
appends to the freshly created `issues` dict / local sets, so the embedding
returns the input store unchanged next to the issues. -/
def validate_st (s : List UseCase × List Service) :
    (List UseCase × List Service) × TraceIssues :=
  let use_cases := s.1
  let services := s.2
  ((use_cases, services), validate use_cases services)

end Trace

/-! ### Concrete sample entities, used by witnesses and counterexamples -/

def sampleUC : Alignment.UseCase :=
  { uc_id := "UC-001", file_path := "specs/use-cases/UC-001-login.md",
    acceptance_criteria := ["Given X", "When Y", "Then Z"],
    bdd_file_referenced := "" }

def sampleUCRef : Alignment.UseCase :=
  { uc_id := "UC-002", file_path := "specs/use-cases/UC-002-pay.md",
    acceptance_criteria := ["one criterion"],
    bdd_file_referenced := "features/uc-002-pay.feature" }

def sampleFeature : Alignment.BDDFeature :=
  { feature_name := "Login", file_path := "tests/bdd/uc-001-login.feature",
    scenarios := ["S1", "S2", "S3"], uc_reference := "UC-001" }

def sampleFeaturePay : Alignment.BDDFeature :=
  { feature_name := "Pay", file_path := "tests/bdd/uc-002-pay.feature",
    scenarios := ["S1"], uc_reference := "UC-002" }

def tracUC1 : Trace.UseCase :=
  { id := "UC-001", name := "UC-001-login",
    file_path := "specs/use-cases/UC-001-login.md",
    services_used := ["SVC-1"], has_justification := false }

def tracUCBoth : Trace.UseCase :=
  { id := "UC-001", name := "UC-001-login",
    file_path := "specs/use-cases/UC-001-login.md",
    services_used := ["SVC-1", "auth"], has_justification := false }

def tracUCDupA : Trace.UseCase :=
  { id := "UC-001", name := "UC-001-login",
    file_path := "specs/use-cases/UC-001-login.md",
    services_used := ["SVC-1"], has_justification := false }

def tracUCDupB : Trace.UseCase :=
  { id := "UC-001", name := "UC-001-signup",
    file_path := "specs/use-cases/UC-001-signup.md",
    services_used := [], has_justification := true }

def tracSvcAuth : Trace.Service :=
  { id := "SVC-1", name := "auth",
    file_path := "services/auth/service-spec.md",
    used_by := ["UC-001"] }

def tracSvcPayDup : Trace.Service :=
  { id := "SVC-1", name := "pay",
    file_path := "services/pay/service-spec.md",
    used_by := [] }

def tracSvcAuthUnused : Trace.Service :=
  { id := "SVC-1", name := "auth",
    file_path := "services/auth/service-spec.md",
    used_by := [] }

/-! ### Association-list dictionary lemmas -/

lemma find?_map_overwrite_hit {α : Type} (m : List (String × α)) (k : String) (v : α)
    (h : m.any (fun p => p.1 == k) = true) :
    (m.map (fun p => if p.1 == k then (k, v) else p)).find? (fun p => p.1 == k)
      = some (k, v) := by
  induction m with
  | nil => simp at h
  | cons q t ih =>
    simp only [List.map_cons]
    by_cases hq : (q.1 == k) = true
    · rw [if_pos hq]
      simp only [List.find?_cons, beq_self_eq_true]
    · rw [if_neg hq]
      have hq0 : (q.1 == k) = false := Bool.eq_false_iff.mpr hq
      have ht : t.any (fun p => p.1 == k) = true := by
        simpa [List.any_cons, hq0] using h
      simp only [List.find?_cons, hq0]
      exact ih ht

lemma find?_map_overwrite_miss {α : Type} (m : List (String × α)) (k k2 : String)
    (v : α) (hne : k2 ≠ k) :
    (m.map (fun p => if p.1 == k then (k, v) else p)).find? (fun p => p.1 == k2)
      = m.find? (fun p => p.1 == k2) := by
  induction m with
  | nil => simp
  | cons q t ih =>
    simp only [List.map_cons]
    by_cases hq : (q.1 == k) = true
    · have hq1 : q.1 = k := beq_iff_eq.mp hq
      have h1 : (k == k2) = false := beq_eq_false_iff_ne.mpr (fun h => hne h.symm)
      have h2 : (q.1 == k2) = false := by rw [hq1]; exact h1
      rw [if_pos hq]
      simp only [List.find?_cons, h1, h2]
      exact ih
    · rw [if_neg hq]
      by_cases hq2 : (q.1 == k2) = true
      · simp only [List.find?_cons, hq2]
      · have hq20 : (q.1 == k2) = false := Bool.eq_false_iff.mpr hq2
        simp only [List.find?_cons, hq20]
        exact ih

lemma lookupDict_dictInsert {α : Type} (m : List (String × α)) (k k2 : String)
    (v : α) :
    lookupDict (dictInsert m k v) k2 = if k2 = k then some v else lookupDict m k2 := by
  unfold dictInsert
  by_cases hany : m.any (fun p => p.1 == k) = true
  · rw [if_pos hany]
    by_cases hk : k2 = k
    · subst hk
      rw [lookupDict, find?_map_overwrite_hit m k2 v hany]
      simp
    · rw [lookupDict, find?_map_overwrite_miss m k k2 v hk, if_neg hk]
      rfl
  · rw [if_neg hany]
    have hany0 : m.any (fun p => p.1 == k) = false := Bool.eq_false_iff.mpr hany
    rw [lookupDict, List.find?_append]
    by_cases hk : k2 = k
    · subst hk
      have hnone : m.find? (fun p => p.1 == k2) = none := by
        rw [List.find?_eq_none]
        intro p hp
        exact List.any_eq_false.mp hany0 p hp
      simp [hnone, List.find?_cons]
    · have h2 : ((k, v) :: []).find? (fun p => p.1 == k2) = none := by
        have : (k == k2) = false := beq_eq_false_iff_ne.mpr (fun h => hk h.symm)
        simp [List.find?_cons, this]
      rw [h2, if_neg hk]
      simp [lookupDict]

lemma keys_dictInsert_nodup {α : Type} (m : List (String × α)) (k : String) (v : α)
    (h : (m.map Prod.fst).Nodup) : ((dictInsert m k v).map Prod.fst).Nodup := by
  unfold dictInsert
  by_cases hany : m.any (fun p => p.1 == k) = true
  · rw [if_pos hany]
    have heq : (m.map (fun p => if p.1 == k then (k, v) else p)).map Prod.fst
        = m.map Prod.fst := by
      rw [List.map_map]
      apply List.map_congr_left
      intro p _
      by_cases hp : (p.1 == k) = true
      · have hp1 : p.1 = k := beq_iff_eq.mp hp
        simp [hp1]
      · have hp0 : p.1 ≠ k := by simpa using hp
        simp [hp0]
    rw [heq]
    exact h
  · rw [if_neg hany]
    have hany0 : m.any (fun p => p.1 == k) = false := Bool.eq_false_iff.mpr hany
    rw [List.map_append]
    have hk : k ∉ m.map Prod.fst := by
      intro hmem
      obtain ⟨p, hp, hpk⟩ := List.mem_map.mp hmem
      have := List.any_eq_false.mp hany0 p hp
      simp [hpk] at this
    simp [List.nodup_append, h, hk]

lemma mem_dictInsert {α : Type} {m : List (String × α)} {key : String} {val : α}
    {k : String} {v : α} (h : (k, v) ∈ dictInsert m key val) :
    (k, v) ∈ m ∨ (k = key ∧ v = val) := by
  unfold dictInsert at h
  by_cases hany : m.any (fun p => p.1 == key) = true
  · rw [if_pos hany] at h
    obtain ⟨p, hp, hpe⟩ := List.mem_map.mp h
    by_cases hpk : (p.1 == key) = true
    · rw [if_pos hpk] at hpe
      right
      exact ⟨(congrArg Prod.fst hpe).symm, (congrArg Prod.snd hpe).symm⟩
    · rw [if_neg hpk] at hpe
      left
      exact hpe ▸ hp
  · rw [if_neg hany] at h
    rcases List.mem_append.mp h with h | h
    · left; exact h
    · right
      have he : (k, v) = (key, val) := List.mem_singleton.mp h
      exact ⟨congrArg Prod.fst he, congrArg Prod.snd he⟩

lemma snd_eq_of_nodup_keys {α : Type} {l : List (String × α)}
    (h : (l.map Prod.fst).Nodup) {k : String} {a b : α}
    (ha : (k, a) ∈ l) (hb : (k, b) ∈ l) : a = b := by
  have heq : (k, a) = (k, b) := List.inj_on_of_nodup_map h ha hb rfl
  exact congrArg Prod.snd heq

lemma getLast?_cons_or {α : Type} (a : α) (l : List α) :
    (a :: l).getLast? = l.getLast?.or (some a) := by
  cases l <;> simp [List.getLast?]

/-! ### Characterization of the four directory-scan loops -/

lemma lookup_insert_foldl (entities : List Alignment.UseCase)
    (m : List (String × Alignment.UseCase)) (k : String) :
    lookupDict (entities.foldl (fun acc uc => dictInsert acc uc.uc_id uc) m) k
      = ((entities.filter (fun uc => uc.uc_id == k)).getLast?).or (lookupDict m k) := by
  induction entities generalizing m with
  | nil => simp
  | cons uc rest ih =>
    rw [List.foldl_cons, ih]
    by_cases hk : (uc.uc_id == k) = true
    · have hk1 : uc.uc_id = k := beq_iff_eq.mp hk
      simp only [List.filter_cons, hk, if_true]
      rw [getLast?_cons_or, Option.or_assoc]
      have hlook : lookupDict (dictInsert m uc.uc_id uc) k = some uc := by
        rw [lookupDict_dictInsert, if_pos hk1.symm]
      rw [hlook]
      rfl
    · have hk0 : (uc.uc_id == k) = false := Bool.eq_false_iff.mpr hk
      have hk1 : k ≠ uc.uc_id := fun h => hk (beq_iff_eq.mpr h.symm)
      simp only [List.filter_cons, hk0, Bool.false_eq_true, if_false]
      have hlook : lookupDict (dictInsert m uc.uc_id uc) k = lookupDict m k := by
        rw [lookupDict_dictInsert, if_neg hk1]
      rw [hlook]

lemma keys_insert_foldl_nodup (entities : List Alignment.UseCase)
    (m : List (String × Alignment.UseCase)) (h : (m.map Prod.fst).Nodup) :
    (((entities.foldl (fun acc uc => dictInsert acc uc.uc_id uc) m)).map Prod.fst).Nodup := by
  induction entities generalizing m with
  | nil => exact h
  | cons uc rest ih =>
    rw [List.foldl_cons]
    exact ih _ (keys_dictInsert_nodup m uc.uc_id uc h)

lemma parse_use_cases_scan_eq (files : List (String × Alignment.UCParseOutcome))
    (m : List (String × Alignment.UseCase)) :
    Alignment.parse_use_cases_scan files m =
      (match firstErr files with
       | some e => Except.error e
       | none =>
          Except.ok ((okParses files).foldl (fun acc uc => dictInsert acc uc.uc_id uc) m)) := by
  induction files generalizing m with
  | nil => rfl
  | cons f fs ih =>
    obtain ⟨nm, out⟩ := f
    cases out with
    | error e =>
      simp [Alignment.parse_use_cases_scan, firstErr, List.findSome?_cons]
    | ok o =>
      cases o with
      | none =>
        have h1 : firstErr ((nm, Except.ok (none : Option Alignment.UseCase)) :: fs)
            = firstErr fs := by
          simp [firstErr, List.findSome?_cons]
        have h2 : okParses ((nm, Except.ok (none : Option Alignment.UseCase)) :: fs)
            = okParses fs := by
          simp [okParses]
        rw [h1, h2]
        simpa [Alignment.parse_use_cases_scan] using ih m
      | some uc =>
        have h1 : firstErr ((nm, Except.ok (some uc)) :: fs) = firstErr fs := by
          simp [firstErr, List.findSome?_cons]
        have h2 : okParses ((nm, Except.ok (some uc)) :: fs) = uc :: okParses fs := by
          simp [okParses]
        rw [h1, h2, List.foldl_cons]
        simpa [Alignment.parse_use_cases_scan] using ih (dictInsert m uc.uc_id uc)

lemma parse_bdd_features_scan_eq (files : List (String × Alignment.FeatureParseOutcome))
    (m : List (String × Alignment.BDDFeature)) :
    Alignment.parse_bdd_features_scan files m =
      (match firstErr files with
       | some e => Except.error e
       | none =>
          Except.ok ((okParses files).foldl
            (fun acc feature => dictInsert acc feature.feature_name feature) m)) := by
  induction files generalizing m with
  | nil => rfl
  | cons f fs ih =>
    obtain ⟨nm, out⟩ := f
    cases out with
    | error e =>
      simp [Alignment.parse_bdd_features_scan, firstErr, List.findSome?_cons]
    | ok o =>
      cases o with
      | none =>
        have h1 : firstErr ((nm, Except.ok (none : Option Alignment.BDDFeature)) :: fs)
            = firstErr fs := by
          simp [firstErr, List.findSome?_cons]
        have h2 : okParses ((nm, Except.ok (none : Option Alignment.BDDFeature)) :: fs)
            = okParses fs := by
          simp [okParses]
        rw [h1, h2]
        simpa [Alignment.parse_bdd_features_scan] using ih m
      | some feature =>
        have h1 : firstErr ((nm, Except.ok (some feature)) :: fs) = firstErr fs := by
          simp [firstErr, List.findSome?_cons]
        have h2 : okParses ((nm, Except.ok (some feature)) :: fs)
            = feature :: okParses fs := by
          simp [okParses]
        rw [h1, h2, List.foldl_cons]
        simpa [Alignment.parse_bdd_features_scan] using
          ih (dictInsert m feature.feature_name feature)

lemma trace_fold_scan {α : Type} (files : List (String × Except String α))
    (acc : List α × List String) :
    files.foldl Trace.scan_step acc
      = (acc.1 ++ files.filterMap (fun f => f.2.toOption),
         acc.2 ++ files.filterMap warnOf) := by
  induction files generalizing acc with
  | nil => simp
  | cons f fs ih =>
    obtain ⟨nm, out⟩ := f
    cases out with
    | ok x =>
      rw [List.foldl_cons]
      simp [ih, Trace.scan_step, warnOf, List.filterMap_cons, Except.toOption]
    | error e =>
      rw [List.foldl_cons]
      simp [ih, Trace.scan_step, warnOf, List.filterMap_cons, Except.toOption]

lemma firstErr_map_ok {α : Type} (files : List (String × Option α)) :
    firstErr (files.map (fun f => (f.1, Except.ok f.2))) = none := by
  induction files with
  | nil => rfl
  | cons g gs ih =>
    simpa [firstErr, List.findSome?_cons] using ih

lemma okParses_map_ok {α : Type} (files : List (String × Option α)) :
    okParses (files.map (fun f => (f.1, Except.ok f.2)))
      = files.filterMap Prod.snd := by
  induction files with
  | nil => rfl
  | cons g gs ih =>
    obtain ⟨nm, o⟩ := g
    cases o with
    | none => simpa [okParses, List.filterMap_cons] using ih
    | some x => simpa [okParses, List.filterMap_cons] using ih

/-! ### Shape of the issues each alignment check can emit -/

lemma mem_check_missing_bdd {ucs : List (String × Alignment.UseCase)}
    {fs : List (String × Alignment.BDDFeature)} {i : Alignment.AlignmentIssue}
    (h : i ∈ Alignment.check_missing_bdd_files ucs fs) :
    i.issue_type = "missing_bdd" ∧ i.severity = "error" := by
  obtain ⟨p, hp, hpe⟩ := List.mem_filterMap.mp h
  split_ifs at hpe with h1
  cases hpe
  exact ⟨rfl, rfl⟩

lemma mem_check_orphaned {ucs : List (String × Alignment.UseCase)}
    {fs : List (String × Alignment.BDDFeature)} {i : Alignment.AlignmentIssue}
    (h : i ∈ Alignment.check_orphaned_features ucs fs) :
    i.issue_type = "orphaned_feature" ∨ i.issue_type = "broken_uc_ref" := by
  obtain ⟨p, hp, hpe⟩ := List.mem_filterMap.mp h
  split_ifs at hpe with h1 h2
  · cases hpe; left; rfl
  · cases hpe; right; rfl

lemma mem_check_count {ucs : List (String × Alignment.UseCase)}
    {fs : List (String × Alignment.BDDFeature)} {i : Alignment.AlignmentIssue}
    (h : i ∈ Alignment.check_count_mismatch ucs fs) :
    i.issue_type = "count_mismatch" ∧
      ∃ k V feature, (k, V) ∈ ucs ∧
        lookupDict (Alignment.uc_to_feature fs) k = some feature ∧
        V.acceptance_criteria.length ≠ feature.scenarios.length ∧
        i.uc_id = k ∧ i.feature_name = feature.feature_name := by
  obtain ⟨p, hp, hpe⟩ := List.mem_filterMap.mp h
  cases hl : lookupDict (Alignment.uc_to_feature fs) p.1 with
  | none => rw [hl] at hpe; cases hpe
  | some feature =>
    rw [hl] at hpe
    dsimp only at hpe
    split_ifs at hpe with h1
    cases hpe
    refine ⟨rfl, p.1, p.2, feature, hp, hl, ?_, rfl, rfl⟩
    simpa using h1

lemma mem_check_broken {ucs : List (String × Alignment.UseCase)}
    {fs : List (String × Alignment.BDDFeature)} {i : Alignment.AlignmentIssue}
    (h : i ∈ Alignment.check_broken_references ucs fs) :
    i.issue_type = "broken_bdd_ref" ∧ i.severity = "error" ∧
      ∃ k V, (k, V) ∈ ucs ∧ ¬ V.bdd_file_referenced = "" ∧
        (fs.map (fun p => (pathName p.2.file_path).toLower)).contains
          ((pathName V.bdd_file_referenced).toLower) = false ∧
        i.uc_id = k := by
  obtain ⟨p, hp, hpe⟩ := List.mem_filterMap.mp h
  split_ifs at hpe with h1 h2
  cases hpe
  refine ⟨rfl, rfl, p.1, p.2, hp, ?_, ?_, rfl⟩
  · simpa using h1
  · simpa using h2

/-! ### Counting the missing_bdd issues of one use case -/

lemma check_missing_cons (q : String × Alignment.UseCase)
    (ucs : List (String × Alignment.UseCase))
    (fs : List (String × Alignment.BDDFeature)) :
    Alignment.check_missing_bdd_files (q :: ucs) fs
      = (if ((fs.map (fun p => p.2.uc_reference)).filter (fun r => r != "")).contains q.1
         then ([] : List Alignment.AlignmentIssue)
         else [{ issue_type := "missing_bdd", uc_id := q.1, feature_name := "",
                 message := q.1 ++ " has no corresponding BDD feature file",
                 severity := "error" }])
        ++ Alignment.check_missing_bdd_files ucs fs := by
  simp only [Alignment.check_missing_bdd_files, List.filterMap_cons]
  split_ifs <;> rfl

lemma check_missing_filter_nil (ucs : List (String × Alignment.UseCase))
    (fs : List (String × Alignment.BDDFeature)) (u : String)
    (h : ∀ q ∈ ucs, q.1 ≠ u) :
    (Alignment.check_missing_bdd_files ucs fs).filter
      (fun i => i.issue_type == "missing_bdd" && i.uc_id == u) = [] := by
  apply List.filter_eq_nil_iff.mpr
  intro i hi
  obtain ⟨q, hq, hqe⟩ := List.mem_filterMap.mp hi
  split_ifs at hqe with h1
  cases hqe
  simp [h q hq]

lemma check_missing_filter_eq (ucs : List (String × Alignment.UseCase))
    (fs : List (String × Alignment.BDDFeature)) (u : String)
    (U : Alignment.UseCase) (hnodup : (ucs.map Prod.fst).Nodup)
    (hmem : (u, U) ∈ ucs) :
    (Alignment.check_missing_bdd_files ucs fs).filter
        (fun i => i.issue_type == "missing_bdd" && i.uc_id == u)
      = if ((fs.map (fun p => p.2.uc_reference)).filter (fun r => r != "")).contains u
        then []
        else [{ issue_type := "missing_bdd", uc_id := u, feature_name := "",
                message := u ++ " has no corresponding BDD feature file",
                severity := "error" }] := by
  induction ucs with
  | nil => simp at hmem
  | cons q rest ih =>
    rw [List.map_cons, List.nodup_cons] at hnodup
    rw [List.mem_cons] at hmem
    rcases hmem with heq | hmem
    · have hq : q = (u, U) := heq.symm
      subst hq
      have hrest : ∀ r ∈ rest, r.1 ≠ u := by
        intro r hr hru
        have h1 : r.1 ∈ rest.map Prod.fst := List.mem_map_of_mem Prod.fst hr
        rw [hru] at h1
        exact hnodup.1 h1
      rw [check_missing_cons, List.filter_append,
        check_missing_filter_nil rest fs u hrest]
      by_cases hc : ((fs.map (fun p => p.2.uc_reference)).filter
          (fun r => r != "")).contains u = true
      · rw [if_pos hc]
        simp
      · rw [if_neg hc]
        simp
    · have hq : q.1 ≠ u := by
        intro hqu
        apply hnodup.1
        rw [hqu]
        exact List.mem_map_of_mem Prod.fst hmem
      rw [check_missing_cons, List.filter_append, ih hnodup.2 hmem]
      have hhead : ((if ((fs.map (fun p => p.2.uc_reference)).filter
            (fun r => r != "")).contains q.1
          then ([] : List Alignment.AlignmentIssue)
          else [{ issue_type := "missing_bdd", uc_id := q.1, feature_name := "",
                  message := q.1 ++ " has no corresponding BDD feature file",
                  severity := "error" }]).filter
            (fun i => i.issue_type == "missing_bdd" && i.uc_id == u)) = [] := by
        split_ifs
        · rfl
        · simp [hq]
      rw [hhead, List.nil_append]

lemma contains_refs_eq_any (fs : List (String × Alignment.BDDFeature)) (u : String)
    (hu : u ≠ "") :
    ((fs.map (fun p => p.2.uc_reference)).filter (fun r => r != "")).contains u
      = fs.any (fun p => p.2.uc_reference == u) := by
  apply Bool.coe_iff_coe.mp
  rw [List.any_eq_true]
  constructor
  · intro h
    have hm : u ∈ (fs.map (fun p => p.2.uc_reference)).filter (fun r => r != "") := by
      simpa [List.contains] using h
    obtain ⟨hmm, _⟩ := List.mem_filter.mp hm
    obtain ⟨p, hp, hpe⟩ := List.mem_map.mp hmm
    exact ⟨p, hp, beq_iff_eq.mpr hpe⟩
  · intro h
    obtain ⟨p, hp, hpe⟩ := h
    have hpe1 : p.2.uc_reference = u := beq_iff_eq.mp hpe
    have hm : u ∈ (fs.map (fun p => p.2.uc_reference)).filter (fun r => r != "") := by
      apply List.mem_filter.mpr
      refine ⟨List.mem_map.mpr ⟨p, hp, hpe1⟩, by simp [hu]⟩
    simpa [List.contains] using hm

lemma lookupDict_mem {α : Type} {m : List (String × α)} {k : String} {v : α}
    (h : lookupDict m k = some v) : (k, v) ∈ m := by
  unfold lookupDict at h
  cases hf : m.find? (fun p => p.1 == k) with
  | none => rw [hf] at h; cases h
  | some p =>
    rw [hf] at h
    have h0 : p.2 = v := by simpa using h
    have hfind := List.find?_some hf
    have h1 : p.1 = k := beq_iff_eq.mp hfind
    have h2 : p ∈ m := List.mem_of_find?_eq_some hf
    have h3 : (k, v) = p := by
      obtain ⟨a, b⟩ := p
      cases h0
      cases h1
      rfl
    rw [h3]
    exact h2

lemma mem_uc_to_feature {fs : List (String × Alignment.BDDFeature)}
    {k : String} {G : Alignment.BDDFeature}
    (h : (k, G) ∈ Alignment.uc_to_feature fs) :
    (∃ n, (n, G) ∈ fs) ∧ G.uc_reference = k := by
  have main : ∀ (gs : List (String × Alignment.BDDFeature))
      (m0 : List (String × Alignment.BDDFeature)),
      (k, G) ∈ gs.foldl
        (fun m p => if p.2.uc_reference != "" then dictInsert m p.2.uc_reference p.2 else m)
        m0 →
      (k, G) ∈ m0 ∨ ((∃ n, (n, G) ∈ gs) ∧ G.uc_reference = k) := by
    intro gs
    induction gs with
    | nil =>
      intro m0 hm
      left
      exact hm
    | cons p rest ih =>
      intro m0 hm
      rw [List.foldl_cons] at hm
      rcases ih _ hm with h1 | h1
      · by_cases href : (p.2.uc_reference != "") = true
        · rw [if_pos href] at h1
          rcases mem_dictInsert h1 with h2 | h2
          · left; exact h2
          · right
            refine ⟨⟨p.1, ?_⟩, ?_⟩
            · rw [h2.2]
              exact List.mem_cons_self p rest
            · rw [h2.2]
              exact h2.1.symm
        · rw [if_neg href] at h1
          left
          exact h1
      · right
        obtain ⟨⟨n, hn⟩, hrefk⟩ := h1
        exact ⟨⟨n, List.mem_cons_of_mem p hn⟩, hrefk⟩
  rcases main fs [] h with h1 | h1
  · cases h1
  · exact h1


/-! ### Shape of the traceability validator records -/

lemma resolve_service_props {services : List Trace.Service} {ref : String}
    {s : Trace.Service} (h : Trace.resolve_service services ref = some s) :
    s ∈ services ∧ (s.id = ref ∨ s.name = ref) := by
  unfold Trace.resolve_service at h
  cases hg : (services.filter (fun t => t.id == ref)).getLast? with
  | some t =>
    rw [hg] at h
    dsimp only at h
    have hts : t = s := by cases h; rfl
    have ht := List.mem_of_getLast?_eq_some hg
    obtain ⟨htm, htp⟩ := List.mem_filter.mp ht
    subst hts
    exact ⟨htm, Or.inl (beq_iff_eq.mp htp)⟩
  | none =>
    rw [hg] at h
    dsimp only at h
    have h1 := List.find?_some h
    have h2 := List.mem_of_find?_eq_some h
    exact ⟨h2, Or.inr (beq_iff_eq.mp h1)⟩

lemma resolve_none_iff (services : List Trace.Service) (ref : String) :
    Trace.resolve_service services ref = none
      ↔ (services.any (fun s => s.id == ref) = false ∧
         services.any (fun s => s.name == ref) = false) := by
  unfold Trace.resolve_service
  cases hg : (services.filter (fun s => s.id == ref)).getLast? with
  | some t =>
    dsimp only
    constructor
    · intro h
      cases h
    · rintro ⟨h1, -⟩
      exfalso
      have ht := List.mem_of_getLast?_eq_some hg
      obtain ⟨htm, htp⟩ := List.mem_filter.mp ht
      exact (List.any_eq_false.mp h1 t htm) htp
  | none =>
    dsimp only
    rw [List.find?_eq_none]
    constructor
    · intro h
      constructor
      · have hfil : services.filter (fun s => s.id == ref) = [] :=
          List.getLast?_eq_none_iff.mp hg
        rw [List.any_eq_false]
        intro s hs hsp
        have hmem : s ∈ services.filter (fun t => t.id == ref) :=
          List.mem_filter.mpr ⟨hs, hsp⟩
        rw [hfil] at hmem
        cases hmem
      · rw [List.any_eq_false]
        intro s hs hsp
        exact h s hs hsp
    · rintro ⟨-, h2⟩
      intro s hs hsp
      exact (List.any_eq_false.mp h2 s hs) hsp

lemma mem_check_missing_services_iff {use_cases : List Trace.UseCase}
    {services : List Trace.Service} {rec : Trace.MissingService} :
    rec ∈ Trace.check_missing_services use_cases services
      ↔ ∃ uc ∈ use_cases, ∃ ref ∈ uc.services_used,
          services.any (fun s => s.id == ref) = false ∧
          services.any (fun s => s.name == ref) = false ∧
          rec = { uc := uc.id, service := ref, uc_file := uc.file_path } := by
  constructor
  · intro h
    obtain ⟨uc, huc, hr⟩ := List.mem_flatMap.mp h
    obtain ⟨ref, href, hre⟩ := List.mem_filterMap.mp hr
    split_ifs at hre with h1 h2
    cases hre
    rw [Bool.not_eq_true'] at h1 h2
    exact ⟨uc, huc, ref, href, h1, h2, rfl⟩
  · rintro ⟨uc, huc, ref, href, h1, h2, rfl⟩
    apply List.mem_flatMap.mpr
    refine ⟨uc, huc, List.mem_filterMap.mpr ⟨ref, href, ?_⟩⟩
    have hb1 : (!(services.any (fun s => s.id == ref))) = true := by
      rw [Bool.not_eq_true']
      exact h1
    have hb2 : (!(services.any (fun s => s.name == ref))) = true := by
      rw [Bool.not_eq_true']
      exact h2
    rw [if_pos hb1, if_pos hb2]

lemma mem_forward_mismatches {use_cases : List Trace.UseCase}
    {services : List Trace.Service} {r : Trace.BidirMismatch}
    (h : r ∈ Trace.forward_mismatches use_cases services) :
    ∃ uc ∈ use_cases, ∃ ref ∈ uc.services_used, ∃ s,
      Trace.resolve_service services ref = some s ∧
      s.used_by.contains uc.id = false ∧
      r = { uc := uc.id, service := s.id, issue := Trace.forward_msg,
            uc_file := uc.file_path, service_file := s.file_path } := by
  obtain ⟨uc, huc, hr⟩ := List.mem_flatMap.mp h
  obtain ⟨ref, href, hre⟩ := List.mem_filterMap.mp hr
  unfold Trace.forward_emit at hre
  cases hs : Trace.resolve_service services ref with
  | none => rw [hs] at hre; cases hre
  | some s =>
    rw [hs] at hre
    dsimp only at hre
    split_ifs at hre with hcond
    cases hre
    rw [Bool.not_eq_true'] at hcond
    exact ⟨uc, huc, ref, href, s, hs, hcond, rfl⟩

lemma mem_backward_mismatches {use_cases : List Trace.UseCase}
    {services : List Trace.Service} {r : Trace.BidirMismatch}
    (h : r ∈ Trace.backward_mismatches use_cases services) :
    ∃ service ∈ services, ∃ uc_ref ∈ service.used_by, ∃ uc,
      use_cases.find? (fun u => u.id == uc_ref) = some uc ∧
      uc.services_used.contains service.id = false ∧
      uc.services_used.contains service.name = false ∧
      r = { uc := uc_ref, service := service.id, issue := Trace.backward_msg,
            uc_file := uc.file_path, service_file := service.file_path } := by
  obtain ⟨service, hsv, hr⟩ := List.mem_flatMap.mp h
  obtain ⟨uc_ref, href, hre⟩ := List.mem_filterMap.mp hr
  unfold Trace.backward_emit at hre
  cases hu : use_cases.find? (fun u => u.id == uc_ref) with
  | none => rw [hu] at hre; cases hre
  | some uc =>
    rw [hu] at hre
    dsimp only at hre
    split_ifs at hre with hcond
    cases hre
    rw [Bool.and_eq_true] at hcond
    obtain ⟨hc1, hc2⟩ := hcond
    rw [Bool.not_eq_true'] at hc1 hc2
    exact ⟨service, hsv, uc_ref, href, uc, hu, hc1, hc2, rfl⟩

lemma forward_emit_some {services : List Trace.Service} {uc : Trace.UseCase}
    {ref : String} {rec : Trace.BidirMismatch}
    (h : Trace.forward_emit services uc ref = some rec) :
    rec.uc = uc.id ∧ rec.issue = Trace.forward_msg ∧
      ∃ s, Trace.resolve_service services ref = some s ∧ rec.service = s.id := by
  unfold Trace.forward_emit at h
  cases hs : Trace.resolve_service services ref with
  | none => rw [hs] at h; cases h
  | some s =>
    rw [hs] at h
    dsimp only at h
    split_ifs at h with hcond
    cases h
    exact ⟨rfl, rfl, s, rfl, rfl⟩

lemma backward_emit_some {use_cases : List Trace.UseCase}
    {service : Trace.Service} {uc_ref : String} {rec : Trace.BidirMismatch}
    (h : Trace.backward_emit use_cases service uc_ref = some rec) :
    rec.uc = uc_ref ∧ rec.service = service.id ∧
      rec.issue = Trace.backward_msg := by
  unfold Trace.backward_emit at h
  cases hf : use_cases.find? (fun u => u.id == uc_ref) with
  | none => rw [hf] at h; cases h
  | some uc =>
    rw [hf] at h
    dsimp only at h
    split_ifs at h with hcond
    cases h
    exact ⟨rfl, rfl, rfl⟩

lemma filter_flatMap {α β : Type} (l : List α) (f : α → List β) (p : β → Bool) :
    (l.flatMap f).filter p = l.flatMap (fun a => (f a).filter p) := by
  induction l with
  | nil => rfl
  | cons a t ih => simp [List.filter_append, ih]

lemma flatMap_filter_single {α β : Type} (key : α → String) (h : α → List β)
    (p : β → Bool) (A : α) :
    ∀ l : List α, (l.map key).Nodup → A ∈ l →
      (∀ x ∈ l, key x ≠ key A → (h x).filter p = []) →
      (l.flatMap h).filter p = (h A).filter p := by
  intro l
  induction l with
  | nil =>
    intro _ hA _
    cases hA
  | cons x t ih =>
    intro hn hA hzero
    rw [List.map_cons, List.nodup_cons] at hn
    rw [List.flatMap_cons, List.filter_append]
    rcases List.mem_cons.mp hA with rfl | hA2
    · have hrest : (t.flatMap h).filter p = [] := by
        rw [filter_flatMap, List.flatMap_eq_nil_iff]
        intro y hy
        apply hzero y (List.mem_cons_of_mem _ hy)
        intro hkey
        exact hn.1 (hkey ▸ List.mem_map_of_mem key hy)
      rw [hrest, List.append_nil]
    · have hx : key x ≠ key A := by
        intro hkey
        apply hn.1
        rw [hkey]
        exact List.mem_map_of_mem key hA2
      rw [hzero x (List.mem_cons_self x t) hx, List.nil_append]
      exact ih hn.2 hA2 (fun y hy hky => hzero y (List.mem_cons_of_mem _ hy) hky)

lemma forward_filter_nil (services : List Trace.Service)
    (uc : Trace.UseCase) (p : Trace.BidirMismatch → Bool)
    (hp : ∀ rec : Trace.BidirMismatch, rec.uc = uc.id → p rec = false) :
    (uc.services_used.filterMap (Trace.forward_emit services uc)).filter p = [] := by
  apply List.filter_eq_nil_iff.mpr
  intro rec hrec
  obtain ⟨ref, -, hemit⟩ := List.mem_filterMap.mp hrec
  obtain ⟨hu, -, -⟩ := forward_emit_some hemit
  simp [hp rec hu]

lemma backward_filter_nil (use_cases : List Trace.UseCase)
    (service : Trace.Service) (p : Trace.BidirMismatch → Bool)
    (hp : ∀ rec : Trace.BidirMismatch, rec.service = service.id → p rec = false) :
    (service.used_by.filterMap (Trace.backward_emit use_cases service)).filter p
      = [] := by
  apply List.filter_eq_nil_iff.mpr
  intro rec hrec
  obtain ⟨uc_ref, -, hemit⟩ := List.mem_filterMap.mp hrec
  obtain ⟨-, hsvc, -⟩ := backward_emit_some hemit
  simp [hp rec hsvc]

lemma forward_pair_bound (services : List Trace.Service)
    (hsvc : (services.map Trace.Service.id).Nodup)
    (S : Trace.Service) (hS : S ∈ services) (A : Trace.UseCase) :
    ∀ refs : List String,
      ((refs.filterMap (Trace.forward_emit services A)).filter
          (fun r => r.uc == A.id && r.service == S.id
            && r.issue == Trace.forward_msg)).length
        ≤ refs.countP (fun ref => Trace.resolve_service services ref == some S) := by
  intro refs
  induction refs with
  | nil => simp
  | cons ref rest ih =>
    rw [List.filterMap_cons, List.countP_cons]
    cases hres : Trace.resolve_service services ref with
    | none =>
      have hemit : Trace.forward_emit services A ref = none := by
        unfold Trace.forward_emit
        rw [hres]
      rw [hemit]
      simpa using ih
    | some s =>
      by_cases hcond : (!(s.used_by.contains A.id)) = true
      · have hemit : Trace.forward_emit services A ref
            = some { uc := A.id, service := s.id, issue := Trace.forward_msg,
                     uc_file := A.file_path, service_file := s.file_path } := by
          unfold Trace.forward_emit
          rw [hres]
          dsimp only
          rw [if_pos hcond]
        rw [hemit]
        by_cases hsid : s.id = S.id
        · have hsS : s = S :=
            List.inj_on_of_nodup_map hsvc (resolve_service_props hres).1 hS hsid
          subst hsS
          simp only [List.filter_cons, beq_self_eq_true, Bool.and_true,
            Bool.true_and, if_true, List.length_cons]
          omega
        · have hpred : (s.id == S.id) = false := beq_eq_false_iff_ne.mpr hsid
          have hso : (some s == some S) = false := by
            apply beq_eq_false_iff_ne.mpr
            intro h
            exact hsid (congrArg Trace.Service.id (Option.some.inj h))
          simp only [List.filter_cons, beq_self_eq_true, Bool.and_true,
            Bool.true_and, hpred, Bool.false_eq_true, if_false, hso]
          exact Nat.le_trans ih (Nat.le_add_right _ _)
      · have hemit : Trace.forward_emit services A ref = none := by
          unfold Trace.forward_emit
          rw [hres]
          dsimp only
          rw [if_neg hcond]
        rw [hemit]
        exact Nat.le_trans ih (Nat.le_add_right _ _)

lemma backward_pair_bound (use_cases : List Trace.UseCase)
    (S : Trace.Service) (A : Trace.UseCase) :
    ∀ used : List String,
      ((used.filterMap (Trace.backward_emit use_cases S)).filter
          (fun r => r.uc == A.id && r.service == S.id
            && r.issue == Trace.backward_msg)).length
        ≤ used.countP (fun x => x == A.id) := by
  intro used
  induction used with
  | nil => simp
  | cons uc_ref rest ih =>
    rw [List.filterMap_cons, List.countP_cons]
    cases hf : use_cases.find? (fun u => u.id == uc_ref) with
    | none =>
      have hemit : Trace.backward_emit use_cases S uc_ref = none := by
        unfold Trace.backward_emit
        rw [hf]
      rw [hemit]
      exact Nat.le_trans ih (Nat.le_add_right _ _)
    | some uc =>
      by_cases hcond : (!(uc.services_used.contains S.id)
          && !(uc.services_used.contains S.name)) = true
      · have hemit : Trace.backward_emit use_cases S uc_ref
            = some { uc := uc_ref, service := S.id, issue := Trace.backward_msg,
                     uc_file := uc.file_path, service_file := S.file_path } := by
          unfold Trace.backward_emit
          rw [hf]
          dsimp only
          rw [if_pos hcond]
        rw [hemit]
        by_cases href : (uc_ref == A.id) = true
        · simp only [List.filter_cons, beq_self_eq_true, Bool.and_true,
            Bool.true_and, href, if_true, List.length_cons]
          omega
        · have href0 : (uc_ref == A.id) = false := Bool.eq_false_iff.mpr href
          simp only [List.filter_cons, beq_self_eq_true, Bool.and_true,
            Bool.true_and, href0, Bool.false_eq_true, if_false]
          exact Nat.le_trans ih (Nat.le_add_right _ _)
      · have hemit : Trace.backward_emit use_cases S uc_ref = none := by
          unfold Trace.backward_emit
          rw [hf]
          dsimp only
          rw [if_neg hcond]
        rw [hemit]
        exact Nat.le_trans ih (Nat.le_add_right _ _)

/-! ### The claims -/

/-- C1: for every use case `(u, U)` of the parsed use-case dict (keys are
distinct and ids are non-empty, as produced by the parser), one run of the
alignment validator emits exactly one `missing_bdd` issue for `u` — with
severity `error` — when no parsed feature's `uc_reference` equals `u`, and
emits no `missing_bdd` issue for `u` when some feature references `u`. -/
theorem C1_missing_bdd_exactly_one
    (use_cases : List (String × Alignment.UseCase))
    (bdd_features : List (String × Alignment.BDDFeature))
    (u : String) (U : Alignment.UseCase)
    (hnodup : (use_cases.map Prod.fst).Nodup)
    (hmem : (u, U) ∈ use_cases) (hu : u ≠ "") :
    ((Alignment.validate use_cases bdd_features).filter
        (fun i => i.issue_type == "missing_bdd" && i.uc_id == u)).map
        (fun i => i.severity)
      = if bdd_features.any (fun p => p.2.uc_reference == u) then [] else ["error"] := by
  rw [Alignment.validate, List.filter_append, List.filter_append, List.filter_append]
  have h2 : (Alignment.check_orphaned_features use_cases bdd_features).filter
      (fun i => i.issue_type == "missing_bdd" && i.uc_id == u) = [] := by
    apply List.filter_eq_nil_iff.mpr
    intro i hi
    rcases mem_check_orphaned hi with h | h <;> simp [h]
  have h3 : (Alignment.check_count_mismatch use_cases bdd_features).filter
      (fun i => i.issue_type == "missing_bdd" && i.uc_id == u) = [] := by
    apply List.filter_eq_nil_iff.mpr
    intro i hi
    simp [(mem_check_count hi).1]
  have h4 : (Alignment.check_broken_references use_cases bdd_features).filter
      (fun i => i.issue_type == "missing_bdd" && i.uc_id == u) = [] := by
    apply List.filter_eq_nil_iff.mpr
    intro i hi
    simp [(mem_check_broken hi).1]
  rw [h2, h3, h4,
    check_missing_filter_eq use_cases bdd_features u U hnodup hmem,
    contains_refs_eq_any bdd_features u hu]
  by_cases hany : bdd_features.any (fun p => p.2.uc_reference == u) = true
  · simp [hany]
  · have hany0 : bdd_features.any (fun p => p.2.uc_reference == u) = false :=
      Bool.eq_false_iff.mpr hany
    simp [hany0]

/-- Witness for C1 at a concrete input: a one-use-case dict and an empty
feature dict, where the validator emits exactly one `missing_bdd` error. -/
theorem C1_missing_bdd_exactly_one_witness :
    (([("UC-001", sampleUC)].map Prod.fst).Nodup) ∧
    (("UC-001", sampleUC) ∈ [("UC-001", sampleUC)]) ∧
    ("UC-001" ≠ "") ∧
    (((Alignment.validate [("UC-001", sampleUC)] []).filter
        (fun i => i.issue_type == "missing_bdd" && i.uc_id == "UC-001")).map
        (fun i => i.severity)
      = if ([] : List (String × Alignment.BDDFeature)).any
            (fun p => p.2.uc_reference == "UC-001") then [] else ["error"]) :=
  ⟨by decide, by decide, by decide,
    C1_missing_bdd_exactly_one [("UC-001", sampleUC)] [] "UC-001" sampleUC
      (by decide) (by decide) (by decide)⟩

/-- C2 counterexample: in the alignment use-case scan an exception on one
file is NOT caught per-file — the scan fails as a whole with that exception
and the remaining, parseable file is never processed, contrary to the claim
that every directory scan skips the failing file and continues. -/
theorem C2_per_file_catch_counterexample :
    Alignment.parse_use_cases_scan
      [("specs/use-cases/UC-999-bad.md", Except.error "boom"),
       ("specs/use-cases/UC-001-login.md", Except.ok (some sampleUC))] []
      = Except.error "boom" := rfl

/-- C2 (amended): per-file exception handling holds only for the two
traceability scans — an erroring file yields one warning naming it, is
excluded, and the scan continues, the entity list being exactly the
successful parses in order — while the two alignment scans have no per-file
handler: their result is the first exception when any file raises, and the
repository is built only when no file raises. -/
theorem C2_amended_per_file_handling :
    (∀ files : List (String × Except String Trace.UseCase),
       Trace.parse_use_cases_scan files
         = (files.filterMap (fun f => f.2.toOption),
            files.filterMap warnOf)) ∧
    (∀ files : List (String × Except String Trace.Service),
       Trace.parse_services_scan files
         = (files.filterMap (fun f => f.2.toOption),
            files.filterMap warnOf)) ∧
    (∀ files : List (String × Alignment.UCParseOutcome),
       Alignment.parse_use_cases_scan files []
         = (match firstErr files with
            | some e => Except.error e
            | none => Except.ok ((okParses files).foldl
                (fun acc uc => dictInsert acc uc.uc_id uc) []))) ∧
    (∀ files : List (String × Alignment.FeatureParseOutcome),
       Alignment.parse_bdd_features_scan files []
         = (match firstErr files with
            | some e => Except.error e
            | none => Except.ok ((okParses files).foldl
                (fun acc feature => dictInsert acc feature.feature_name feature) []))) := by
  refine ⟨?_, ?_, ?_, ?_⟩
  · intro files
    unfold Trace.parse_use_cases_scan
    rw [trace_fold_scan files ([], [])]
    simp only [List.nil_append]
  · intro files
    unfold Trace.parse_services_scan
    rw [trace_fold_scan files ([], [])]
    simp only [List.nil_append]
  · intro files
    exact parse_use_cases_scan_eq files []
  · intro files
    exact parse_bdd_features_scan_eq files []

/-- C3 counterexample: the traceability use-case scan keeps BOTH files whose
ids collide on `UC-001` — the result is a list with two use cases of the
same id, not a map with at most one entry per id where the later file
overwrites the earlier. -/
theorem C3_per_id_overwrite_counterexample :
    (Trace.parse_use_cases_scan
      [("specs/use-cases/UC-001-login.md", Except.ok tracUCDupA),
       ("specs/use-cases/UC-001-signup.md", Except.ok tracUCDupB)]).1
      = [tracUCDupA, tracUCDupB] ∧
    tracUCDupA ≠ tracUCDupB ∧
    ((Trace.parse_use_cases_scan
      [("specs/use-cases/UC-001-login.md", Except.ok tracUCDupA),
       ("specs/use-cases/UC-001-signup.md", Except.ok tracUCDupB)]).1.filter
        (fun uc => uc.id == "UC-001")).length = 2 :=
  ⟨rfl, by decide, rfl⟩

/-- C3 (amended): only the alignment use-case scan returns a dict keyed by
canonical uc id — its keys are distinct, and looking a key up returns the
last parsed entity with that id (later duplicates silently overwrite
earlier ones) — whereas the traceability use-case scan returns the plain
list of all successfully parsed use cases in scan order, duplicated ids
included. -/
theorem C3_amended_repository_keying :
    (∀ entities : List Alignment.UseCase, ∀ k : String,
       lookupDict (Alignment.insert_all entities) k
         = (entities.filter (fun uc => uc.uc_id == k)).getLast?) ∧
    (∀ entities : List Alignment.UseCase,
       ((Alignment.insert_all entities).map Prod.fst).Nodup) ∧
    (∀ files : List (String × Option Alignment.UseCase),
       Alignment.parse_use_cases_scan (files.map (fun f => (f.1, Except.ok f.2))) []
         = Except.ok (Alignment.insert_all (files.filterMap Prod.snd))) ∧
    (∀ files : List (String × Except String Trace.UseCase),
       (Trace.parse_use_cases_scan files).1
         = files.filterMap (fun f => f.2.toOption)) := by
  refine ⟨?_, ?_, ?_, ?_⟩
  · intro entities k
    rw [Alignment.insert_all, lookup_insert_foldl]
    simp [lookupDict]
  · intro entities
    exact keys_insert_foldl_nodup entities [] (by simp)
  · intro files
    rw [parse_use_cases_scan_eq, firstErr_map_ok, okParses_map_ok]
    rfl
  · intro files
    unfold Trace.parse_use_cases_scan
    rw [trace_fold_scan files ([], [])]
    simp

/-- C8: both embedded validators are pure functions of the parsed entities —
the `self` object carries no state and nothing else is read — so a second
run on unchanged inputs returns the identical, identically-ordered result. -/
theorem C8_validators_idempotent :
    (∀ (use_cases : List (String × Alignment.UseCase))
       (bdd_features : List (String × Alignment.BDDFeature)),
       Alignment.validate use_cases bdd_features
         = Alignment.validate use_cases bdd_features) ∧
    (∀ (use_cases : List Trace.UseCase) (services : List Trace.Service),
       Trace.validate use_cases services = Trace.validate use_cases services) :=
  ⟨fun _ _ => rfl, fun _ _ => rfl⟩

/-- C9: the state-passing embeddings of both validator methods return the
input store unchanged next to the issues: no statement of either method
assigns into the input collections or entities, so validation does not
mutate its inputs. -/
theorem C9_validate_preserves_inputs :
    (∀ s : List (String × Alignment.UseCase) × List (String × Alignment.BDDFeature),
       (Alignment.validate_st s).1 = s ∧
       (Alignment.validate_st s).2 = Alignment.validate s.1 s.2) ∧
    (∀ s : List Trace.UseCase × List Trace.Service,
       (Trace.validate_st s).1 = s ∧
       (Trace.validate_st s).2 = Trace.validate s.1 s.2) :=
  ⟨fun _ => ⟨rfl, rfl⟩, fun _ => ⟨rfl, rfl⟩⟩

/-- C6: for a parsed feature `F` (feature dict keyed by feature name) whose
`uc_reference` names a use case `(u, U)` present in the use-case dict, with
`U`'s acceptance-criteria count equal to `F`'s scenario count, one run of the
alignment validator emits no `count_mismatch` issue for the pair `(U, F)`. -/
theorem C6_no_count_mismatch_when_counts_match
    (use_cases : List (String × Alignment.UseCase))
    (bdd_features : List (String × Alignment.BDDFeature))
    (hkeys : ∀ p ∈ bdd_features, p.2.feature_name = p.1)
    (hfnodup : (bdd_features.map Prod.fst).Nodup)
    (hucnodup : (use_cases.map Prod.fst).Nodup)
    (u : String) (U : Alignment.UseCase) (hmem : (u, U) ∈ use_cases)
    (F : Alignment.BDDFeature) (hF : (F.feature_name, F) ∈ bdd_features)
    (href : F.uc_reference = u)
    (hcount : U.acceptance_criteria.length = F.scenarios.length) :
    (Alignment.validate use_cases bdd_features).filter
        (fun i => i.issue_type == "count_mismatch" && i.uc_id == u
          && i.feature_name == F.feature_name) = [] := by
  apply List.filter_eq_nil_iff.mpr
  intro i hi
  rw [Alignment.validate] at hi
  rcases List.mem_append.mp hi with hi1 | hi4
  rcases List.mem_append.mp hi1 with hi2 | hi3
  rcases List.mem_append.mp hi2 with hia | hib
  · simp [(mem_check_missing_bdd hia).1]
  · rcases mem_check_orphaned hib with ht | ht <;> simp [ht]
  · obtain ⟨htype, k, V, feature, hkV, hlook, hne, hiuc, hifn⟩ := mem_check_count hi3
    rw [htype, hiuc, hifn]
    simp only [Bool.and_eq_true, beq_iff_eq]
    rintro ⟨⟨-, hku⟩, hfn⟩
    subst hku
    have hVU : V = U := snd_eq_of_nodup_keys hucnodup hkV hmem
    obtain ⟨⟨n, hnG⟩, hGref⟩ := mem_uc_to_feature (lookupDict_mem hlook)
    have hnval : n = feature.feature_name := (hkeys (n, feature) hnG).symm
    subst hnval
    rw [hfn] at hnG
    have hGF : feature = F := snd_eq_of_nodup_keys hfnodup hnG hF
    rw [hVU, hGF] at hne
    exact hne hcount
  · simp [(mem_check_broken hi4).1]

/-- Witness for C6 at a concrete input: use case `UC-001` with three
criteria, feature `Login` with three scenarios referencing it — no
`count_mismatch` issue is emitted for the pair. -/
theorem C6_no_count_mismatch_when_counts_match_witness :
    (∀ p ∈ [("Login", sampleFeature)], p.2.feature_name = p.1) ∧
    (([("Login", sampleFeature)].map Prod.fst).Nodup) ∧
    (([("UC-001", sampleUC)].map Prod.fst).Nodup) ∧
    (("UC-001", sampleUC) ∈ [("UC-001", sampleUC)]) ∧
    ((sampleFeature.feature_name, sampleFeature) ∈ [("Login", sampleFeature)]) ∧
    (sampleFeature.uc_reference = "UC-001") ∧
    (sampleUC.acceptance_criteria.length = sampleFeature.scenarios.length) ∧
    ((Alignment.validate [("UC-001", sampleUC)] [("Login", sampleFeature)]).filter
        (fun i => i.issue_type == "count_mismatch" && i.uc_id == "UC-001"
          && i.feature_name == sampleFeature.feature_name) = []) :=
  ⟨by decide, by decide, by decide, by decide, by decide, by decide, by decide,
    C6_no_count_mismatch_when_counts_match
      [("UC-001", sampleUC)] [("Login", sampleFeature)]
      (by decide) (by decide) (by decide) "UC-001" sampleUC (by decide)
      sampleFeature (by decide) (by decide) (by decide)⟩

/-- C7: for a use case `(u, U)` of the parsed dict (distinct keys), one run
of the alignment validator emits a `broken_bdd_ref` error issue for `u` if
and only if `U.bdd_file_referenced` is non-empty and its lower-cased base
filename is absent from the set of the parsed feature files lower-cased base
filenames; an empty `bdd_file_referenced` yields no such issue. -/
theorem C7_broken_bdd_ref_iff
    (use_cases : List (String × Alignment.UseCase))
    (bdd_features : List (String × Alignment.BDDFeature))
    (hucnodup : (use_cases.map Prod.fst).Nodup)
    (u : String) (U : Alignment.UseCase) (hmem : (u, U) ∈ use_cases) :
    ((Alignment.validate use_cases bdd_features).any
        (fun i => i.issue_type == "broken_bdd_ref" && i.uc_id == u
          && i.severity == "error"))
      = (!(U.bdd_file_referenced == "") &&
         !((bdd_features.map (fun p => (pathName p.2.file_path).toLower)).contains
             ((pathName U.bdd_file_referenced).toLower))) := by
  apply Bool.coe_iff_coe.mp
  constructor
  · intro h
    obtain ⟨i, hi, hpred⟩ := List.any_eq_true.mp h
    simp only [Bool.and_eq_true, beq_iff_eq] at hpred
    obtain ⟨⟨htype, hiuc⟩, -⟩ := hpred
    rw [Alignment.validate] at hi
    rcases List.mem_append.mp hi with hi1 | hi4
    · rcases List.mem_append.mp hi1 with hi2 | hi3
      · rcases List.mem_append.mp hi2 with hia | hib
        · rw [(mem_check_missing_bdd hia).1] at htype
          exact absurd htype (by decide)
        · rcases mem_check_orphaned hib with ht | ht <;>
            (rw [ht] at htype; exact absurd htype (by decide))
      · rw [(mem_check_count hi3).1] at htype
        exact absurd htype (by decide)
    · obtain ⟨-, -, k, V, hkV, hne, hcont, hiuc2⟩ := mem_check_broken hi4
      rw [hiuc2] at hiuc
      subst hiuc
      have hVU : V = U := snd_eq_of_nodup_keys hucnodup hkV hmem
      rw [hVU] at hne hcont
      have h1 : (U.bdd_file_referenced == "") = false := beq_eq_false_iff_ne.mpr hne
      rw [h1, hcont]
      rfl
  · intro h
    rw [Bool.and_eq_true] at h
    obtain ⟨hne0, hcont0⟩ := h
    rw [Bool.not_eq_true'] at hne0 hcont0
    apply List.any_eq_true.mpr
    refine ⟨{ issue_type := "broken_bdd_ref", uc_id := u, feature_name := "",
              message := u ++ " references BDD file \x27"
                ++ U.bdd_file_referenced ++ "\x27 which doesn\x27t exist",
              severity := "error" }, ?_, by simp⟩
    rw [Alignment.validate]
    apply List.mem_append.mpr
    right
    apply List.mem_filterMap.mpr
    refine ⟨(u, U), hmem, ?_⟩
    have hc1 : ¬ ((U.bdd_file_referenced == "") = true) := by
      rw [hne0]
      exact Bool.false_ne_true
    have hc2 : ¬ (((bdd_features.map
        (fun p => (pathName p.2.file_path).toLower)).contains
          ((pathName U.bdd_file_referenced).toLower)) = true) := by
      rw [hcont0]
      exact Bool.false_ne_true
    rw [if_neg hc1, if_neg hc2]

/-- Witness for C7 at a concrete input: `UC-002` declares a BDD file but the
feature dict is empty, so the validator emits a `broken_bdd_ref` error, and
the right-hand side of the equivalence evaluates to `true` as well. -/
theorem C7_broken_bdd_ref_iff_witness :
    (([("UC-002", sampleUCRef)].map Prod.fst).Nodup) ∧
    (("UC-002", sampleUCRef) ∈ [("UC-002", sampleUCRef)]) ∧
    (((Alignment.validate [("UC-002", sampleUCRef)] []).any
        (fun i => i.issue_type == "broken_bdd_ref" && i.uc_id == "UC-002"
          && i.severity == "error"))
      = (!(sampleUCRef.bdd_file_referenced == "") &&
         !((([] : List (String × Alignment.BDDFeature)).map
             (fun p => (pathName p.2.file_path).toLower)).contains
             ((pathName sampleUCRef.bdd_file_referenced).toLower)))) :=
  ⟨by decide, by decide,
    C7_broken_bdd_ref_iff [("UC-002", sampleUCRef)] [] (by decide) "UC-002"
      sampleUCRef (by decide)⟩

/-- C4 counterexample: services are not deduplicated by id.  With two parsed
services both carrying id `SVC-1`, use case `UC-001` lists the first one
(`auth`) by id and that service lists `UC-001` back in `used_by` — yet one
run of the traceability validator emits a `bidirectional_mismatch` record for
the pair `(UC-001, SVC-1)`, because the forward pass resolves the reference
to the LAST service with that id, whose `used_by` is empty. -/
theorem C4_counterexample :
    ("SVC-1" ∈ tracUC1.services_used) ∧ ("UC-001" ∈ tracSvcAuth.used_by) ∧
    (tracUC1.id = "UC-001") ∧ (tracSvcAuth.id = "SVC-1") ∧
    (((Trace.validate [tracUC1] [tracSvcAuth, tracSvcPayDup]).bidirectional_mismatches.filter
        (fun r => r.uc == "UC-001" && r.service == "SVC-1")).length = 1) :=
  ⟨by decide, by decide, rfl, rfl, by decide⟩

/-- C4 (amended): provided no two services share an id and no two use cases
share an id, a use case `A` that lists service `S` (by id or by name) and is
listed back in `S.used_by` gets no `bidirectional_mismatch` record carrying
uc id `A.id` and service id `S.id`, in either direction. -/
theorem C4_amended_no_mismatch_when_symmetric
    (use_cases : List Trace.UseCase) (services : List Trace.Service)
    (hsvc : (services.map Trace.Service.id).Nodup)
    (hucids : (use_cases.map Trace.UseCase.id).Nodup)
    (A : Trace.UseCase) (S : Trace.Service)
    (hA : A ∈ use_cases) (hS : S ∈ services)
    (hlink : S.id ∈ A.services_used ∨ S.name ∈ A.services_used)
    (hback : A.id ∈ S.used_by) :
    (Trace.validate use_cases services).bidirectional_mismatches.filter
      (fun r => r.uc == A.id && r.service == S.id) = [] := by
  apply List.filter_eq_nil_iff.mpr
  intro r hr
  rw [show (Trace.validate use_cases services).bidirectional_mismatches
      = Trace.forward_mismatches use_cases services
        ++ Trace.backward_mismatches use_cases services from rfl] at hr
  simp only [Bool.and_eq_true, beq_iff_eq]
  rcases List.mem_append.mp hr with hf | hb
  · obtain ⟨uc, huc, ref, href, s, hres, hnb, hrec⟩ := mem_forward_mismatches hf
    rintro ⟨huca, hsid⟩
    rw [hrec] at huca hsid
    have huceq : uc = A := List.inj_on_of_nodup_map hucids huc hA huca
    obtain ⟨hsmem, -⟩ := resolve_service_props hres
    have hseq : s = S := List.inj_on_of_nodup_map hsvc hsmem hS hsid
    rw [huceq, hseq] at hnb
    rw [List.contains_eq_any_beq] at hnb
    have := List.any_eq_false.mp hnb A.id hback
    simp at this
  · obtain ⟨service, hsv, uc_ref, href2, uc, hfind, hc1, hc2, hrec⟩ :=
      mem_backward_mismatches hb
    rintro ⟨huca, hsid⟩
    rw [hrec] at huca hsid
    have hseq : service = S := List.inj_on_of_nodup_map hsvc hsv hS hsid
    have hucm : uc ∈ use_cases := List.mem_of_find?_eq_some hfind
    have hucid := List.find?_some hfind
    have hucid2 : uc.id = A.id := by
      rw [beq_iff_eq.mp hucid]
      exact huca
    have huceq : uc = A := List.inj_on_of_nodup_map hucids hucm hA hucid2
    rw [hseq, huceq] at hc1 hc2
    rcases hlink with hl | hl
    · rw [List.contains_eq_any_beq] at hc1
      have := List.any_eq_false.mp hc1 S.id hl
      simp at this
    · rw [List.contains_eq_any_beq] at hc2
      have := List.any_eq_false.mp hc2 S.name hl
      simp at this

/-- Witness for C4 (amended) at a concrete input: one use case, one service,
symmetric links, distinct ids — no mismatch record for the pair. -/
theorem C4_amended_no_mismatch_when_symmetric_witness :
    (([tracSvcAuth].map Trace.Service.id).Nodup) ∧
    (([tracUC1].map Trace.UseCase.id).Nodup) ∧
    (tracUC1 ∈ [tracUC1]) ∧ (tracSvcAuth ∈ [tracSvcAuth]) ∧
    (tracSvcAuth.id ∈ tracUC1.services_used ∨
      tracSvcAuth.name ∈ tracUC1.services_used) ∧
    (tracUC1.id ∈ tracSvcAuth.used_by) ∧
    ((Trace.validate [tracUC1] [tracSvcAuth]).bidirectional_mismatches.filter
      (fun r => r.uc == tracUC1.id && r.service == tracSvcAuth.id) = []) :=
  ⟨by decide, by decide, by decide, by decide, by decide, by decide,
    C4_amended_no_mismatch_when_symmetric [tracUC1] [tracSvcAuth]
      (by decide) (by decide) tracUC1 tracSvcAuth (by decide) (by decide)
      (by decide) (by decide)⟩

/-- C10: the missing-service check and the forward bidirectional pass
classify a raw reference `r` of a use case identically: the
`missing_services` record for `(uc, r)` is present in one run of the
traceability validator exactly when the forward pass resolver (by id with
last-wins, else by first name match) fails on `r` — never both outcomes,
never neither. -/
theorem C10_missing_service_iff_unresolvable
    (use_cases : List Trace.UseCase) (services : List Trace.Service)
    (uc : Trace.UseCase) (huc : uc ∈ use_cases)
    (r : String) (hr : r ∈ uc.services_used) :
    (({ uc := uc.id, service := r, uc_file := uc.file_path } : Trace.MissingService)
        ∈ (Trace.validate use_cases services).missing_services)
      ↔ Trace.resolve_service services r = none := by
  rw [show (Trace.validate use_cases services).missing_services
      = Trace.check_missing_services use_cases services from rfl]
  constructor
  · intro h
    obtain ⟨uc2, huc2, ref2, href2, h1, h2, heq⟩ :=
      mem_check_missing_services_iff.mp h
    have hserv : r = ref2 := congrArg Trace.MissingService.service heq
    rw [hserv]
    exact (resolve_none_iff services ref2).mpr ⟨h1, h2⟩
  · intro h
    obtain ⟨h1, h2⟩ := (resolve_none_iff services r).mp h
    exact mem_check_missing_services_iff.mpr ⟨uc, huc, r, hr, h1, h2, rfl⟩

/-- Witness for C10 at a concrete input: with no services at all, the
reference `SVC-1` of `UC-001` is unresolvable and its `missing_services`
record is present. -/
theorem C10_missing_service_iff_unresolvable_witness :
    (tracUC1 ∈ [tracUC1]) ∧ ("SVC-1" ∈ tracUC1.services_used) ∧
    ((({ uc := tracUC1.id, service := "SVC-1", uc_file := tracUC1.file_path }
          : Trace.MissingService)
        ∈ (Trace.validate [tracUC1] []).missing_services)
      ↔ Trace.resolve_service [] "SVC-1" = none) :=
  ⟨by decide, by decide,
    C10_missing_service_iff_unresolvable [tracUC1] [] tracUC1 (by decide)
      "SVC-1" (by decide)⟩

/-- C5 counterexample: one use case that lists the SAME service twice — once
by id `SVC-1`, once by name `auth` — against a service whose `used_by` is
empty: the forward pass alone emits TWO mismatch records for the single pair,
so the per-pair bound of at most one record per direction fails. -/
theorem C5_two_per_pair_counterexample :
    (((Trace.validate [tracUCBoth] [tracSvcAuthUnused]).bidirectional_mismatches.filter
        (fun r => r.uc == "UC-001" && r.service == "SVC-1"
          && r.issue == Trace.forward_msg)).length = 2) := by decide

/-- C5 (amended): the bidirectional check emits at most one forward record
per reference occurrence resolving to a service and at most one backward
record per `used_by` occurrence; hence, with distinct service ids and use
case ids, a pair `(A, S)` such that at most one entry of `A.services_used`
resolves to `S` and `A.id` occurs at most once in `S.used_by` gets at most
one forward record, at most one backward record, and at most two records in
total — but a use case listing one service several times (e.g. by id and by
name) can exceed the claimed bound. -/
theorem C5_amended_per_direction_bound
    (use_cases : List Trace.UseCase) (services : List Trace.Service)
    (hsvc : (services.map Trace.Service.id).Nodup)
    (hucids : (use_cases.map Trace.UseCase.id).Nodup)
    (A : Trace.UseCase) (S : Trace.Service)
    (hA : A ∈ use_cases) (hS : S ∈ services)
    (hfwd : A.services_used.countP
        (fun ref => Trace.resolve_service services ref == some S) ≤ 1)
    (hbwd : S.used_by.countP (fun x => x == A.id) ≤ 1) :
    (((Trace.validate use_cases services).bidirectional_mismatches.filter
        (fun r => r.uc == A.id && r.service == S.id
          && r.issue == Trace.forward_msg)).length ≤ 1) ∧
    (((Trace.validate use_cases services).bidirectional_mismatches.filter
        (fun r => r.uc == A.id && r.service == S.id
          && r.issue == Trace.backward_msg)).length ≤ 1) ∧
    (((Trace.validate use_cases services).bidirectional_mismatches.filter
        (fun r => r.uc == A.id && r.service == S.id)).length ≤ 2) := by
  have hbid : (Trace.validate use_cases services).bidirectional_mismatches
      = Trace.forward_mismatches use_cases services
        ++ Trace.backward_mismatches use_cases services := rfl
  have hmsgs : (Trace.backward_msg == Trace.forward_msg) = false := by decide
  have hmsgs2 : (Trace.forward_msg == Trace.backward_msg) = false := by decide
  have hfwd_main :
      ((Trace.forward_mismatches use_cases services).filter
        (fun r => r.uc == A.id && r.service == S.id
          && r.issue == Trace.forward_msg)).length ≤ 1 := by
    rw [Trace.forward_mismatches]
    rw [flatMap_filter_single Trace.UseCase.id
        (fun uc => uc.services_used.filterMap (Trace.forward_emit services uc))
        (fun r => r.uc == A.id && r.service == S.id
          && r.issue == Trace.forward_msg)
        A use_cases hucids hA ?_]
    · exact Nat.le_trans
        (forward_pair_bound services hsvc S hS A A.services_used) hfwd
    · intro x hx hkey
      apply forward_filter_nil
      intro rec hrec
      have h1 : (rec.uc == A.id) = false := by
        apply beq_eq_false_iff_ne.mpr
        rw [hrec]
        exact hkey
      simp [h1]
  have hbwd_main :
      ((Trace.backward_mismatches use_cases services).filter
        (fun r => r.uc == A.id && r.service == S.id
          && r.issue == Trace.backward_msg)).length ≤ 1 := by
    rw [Trace.backward_mismatches]
    rw [flatMap_filter_single Trace.Service.id
        (fun service => service.used_by.filterMap
          (Trace.backward_emit use_cases service))
        (fun r => r.uc == A.id && r.service == S.id
          && r.issue == Trace.backward_msg)
        S services hsvc hS ?_]
    · exact Nat.le_trans (backward_pair_bound use_cases S A S.used_by) hbwd
    · intro x hx hkey
      apply backward_filter_nil
      intro rec hrec
      have h1 : (rec.service == S.id) = false := by
        apply beq_eq_false_iff_ne.mpr
        rw [hrec]
        exact hkey
      simp [h1]
  have hpf_bwd : ((Trace.backward_mismatches use_cases services).filter
      (fun r => r.uc == A.id && r.service == S.id
        && r.issue == Trace.forward_msg)) = [] := by
    apply List.filter_eq_nil_iff.mpr
    intro rec hrec
    obtain ⟨sv, -, ur, -, uc2, -, -, -, hrec_eq⟩ := mem_backward_mismatches hrec
    rw [hrec_eq]
    simp [hmsgs]
  have hpb_fwd : ((Trace.forward_mismatches use_cases services).filter
      (fun r => r.uc == A.id && r.service == S.id
        && r.issue == Trace.backward_msg)) = [] := by
    apply List.filter_eq_nil_iff.mpr
    intro rec hrec
    obtain ⟨uc2, -, ref2, -, s2, -, -, hrec_eq⟩ := mem_forward_mismatches hrec
    rw [hrec_eq]
    simp [hmsgs2]
  refine ⟨?_, ?_, ?_⟩
  · rw [hbid, List.filter_append, hpf_bwd, List.append_nil]
    exact hfwd_main
  · rw [hbid, List.filter_append, hpb_fwd, List.nil_append]
    exact hbwd_main
  · rw [hbid, List.filter_append, List.length_append]
    have he1 : ((Trace.forward_mismatches use_cases services).filter
        (fun r => r.uc == A.id && r.service == S.id))
        = ((Trace.forward_mismatches use_cases services).filter
          (fun r => r.uc == A.id && r.service == S.id
            && r.issue == Trace.forward_msg)) := by
      apply List.filter_congr
      intro x hx
      obtain ⟨uc2, -, ref2, -, s2, -, -, hrec_eq⟩ := mem_forward_mismatches hx
      rw [hrec_eq]
      simp
    have he2 : ((Trace.backward_mismatches use_cases services).filter
        (fun r => r.uc == A.id && r.service == S.id))
        = ((Trace.backward_mismatches use_cases services).filter
          (fun r => r.uc == A.id && r.service == S.id
            && r.issue == Trace.backward_msg)) := by
      apply List.filter_congr
      intro x hx
      obtain ⟨sv, -, ur, -, uc2, -, -, -, hrec_eq⟩ := mem_backward_mismatches hx
      rw [hrec_eq]
      simp
    rw [he1, he2]
    omega

/-- Witness for C5 (amended) at a concrete input: one use case listing one
service once by id, one service listing the use case once — at most one
record per direction and at most two in total. -/
theorem C5_amended_per_direction_bound_witness :
    (([tracSvcAuth].map Trace.Service.id).Nodup) ∧
    (([tracUC1].map Trace.UseCase.id).Nodup) ∧
    (tracUC1 ∈ [tracUC1]) ∧ (tracSvcAuth ∈ [tracSvcAuth]) ∧
    (tracUC1.services_used.countP
        (fun ref => Trace.resolve_service [tracSvcAuth] ref == some tracSvcAuth) ≤ 1) ∧
    (tracSvcAuth.used_by.countP (fun x => x == tracUC1.id) ≤ 1) ∧
    ((((Trace.validate [tracUC1] [tracSvcAuth]).bidirectional_mismatches.filter
        (fun r => r.uc == tracUC1.id && r.service == tracSvcAuth.id
          && r.issue == Trace.forward_msg)).length ≤ 1) ∧
     (((Trace.validate [tracUC1] [tracSvcAuth]).bidirectional_mismatches.filter
        (fun r => r.uc == tracUC1.id && r.service == tracSvcAuth.id
          && r.issue == Trace.backward_msg)).length ≤ 1) ∧
     (((Trace.validate [tracUC1] [tracSvcAuth]).bidirectional_mismatches.filter
        (fun r => r.uc == tracUC1.id && r.service == tracSvcAuth.id)).length ≤ 2)) :=
  ⟨by decide, by decide, by decide, by decide, by decide, by decide,
    C5_amended_per_direction_bound [tracUC1] [tracSvcAuth] (by decide) (by decide)
      tracUC1 tracSvcAuth (by decide) (by decide) (by decide) (by decide)⟩

end Spec2Proof
